import Mathlib

/-!
Shallow embedding of the rust8 CHIP-8 interpreter, translated from
src/hardware.rs and src/main.rs.

Modelling conventions:
* Rust integers (u8, u16, u32, usize) are Nat.  Explicit truncation
  (mod 256, mod 2 to a power) is applied exactly where the source
  casts with "as", and release-mode wrapping semantics is used for the
  few unchecked u8 additions, multiplications and shifts.  Signed i16
  arithmetic in the subtract opcodes is modelled with Int and emod.
* Out-of-bounds array indexing and unwrap of a missing value abort the
  process in the source; an abort is modelled as Option.none.
* The host keyboard (macroquad is_key_down) and the random generator
  (thread_rng.gen_range over 0..=255) are external inputs; they are
  passed to the cycle function as parameters.
* The println side effect in cycle is not modelled (output only).
* Vec push and pop act on the end of the vector; the stack is a List
  whose head is the most recently pushed return address.
-/

namespace Rust8

/-- PC advance policy, from the PC enum in hardware.rs. -/
inductive PC where
  | keep
  | step
  | skip
deriving DecidableEq

/-- The error kinds the specification names for the typed result of one
interpreter step (InvalidOpcode, AddressOverflow, StackOverflow,
StackUnderflow).  The Rust function cycle has result type
Result of unit and error; the code contains exactly one return of a
result value, namely Ok of unit at the end of cycle. -/
inductive EmuError where
  | invalidOpcode
  | addressOverflow
  | stackOverflow
  | stackUnderflow
deriving DecidableEq

def RAM_SIZE : Nat := 4096
def V_REG_COUNT : Nat := 16
def STACK_SIZE : Nat := 16
def KEY_COUNT : Nat := 16
def CHIP8_WIDTH : Nat := 64
def CHIP8_HEIGHT : Nat := 32

/-- Machine state, from struct Chip8 in hardware.rs. -/
structure Chip8 where
  pc : Nat
  sp : Nat
  stack : List Nat
  i : Nat
  v : Fin 16 → Nat
  tim_delay : Nat
  tim_snd : Nat
  ram : Nat → Nat
  vram : Nat → Nat → Bool
  vram_changed : Bool
  keys : Fin 16 → Bool

/-- Chip8::new(): all zero except the two timers, which start at 255. -/
def chip8_new : Chip8 where
  pc := 0
  sp := 0
  stack := []
  i := 0
  v := fun _ => 0
  tim_delay := 255
  tim_snd := 255
  ram := fun _ => 0
  vram := fun _ _ => false
  vram_changed := false
  keys := fun _ => false

/-- Write one register (array store with an in-range index). -/
def vupd (v : Fin 16 → Nat) (x : Fin 16) (val : Nat) : Fin 16 → Nat :=
  fun r => if r = x then val else v r

/-- Read one RAM byte; indexing out of the 4096-byte array aborts. -/
def ramGet (ram : Nat → Nat) (a : Nat) : Option Nat :=
  if a < RAM_SIZE then some (ram a) else none

/-- Write one RAM byte; indexing out of the 4096-byte array aborts. -/
def ramSet (ram : Nat → Nat) (a val : Nat) : Option (Nat → Nat) :=
  if a < RAM_SIZE then some (fun a2 => if a2 = a then val else ram a2) else none

/-- Array2D::get on the 32 by 64 frame buffer (row, column). -/
def vramGet (g : Nat → Nat → Bool) (r c : Nat) : Option Bool :=
  if r < CHIP8_HEIGHT ∧ c < CHIP8_WIDTH then some (g r c) else none

/-- Array2D::set on the 32 by 64 frame buffer (row, column). -/
def vramSet (g : Nat → Nat → Bool) (r c : Nat) (b : Bool) :
    Option (Nat → Nat → Bool) :=
  if r < CHIP8_HEIGHT ∧ c < CHIP8_WIDTH then
    some (fun r2 c2 => if r2 = r ∧ c2 = c then b else g r2 c2)
  else none

/-- Chip8::load_ram: copy a byte slice into RAM at addr; the copy aborts
when it would run past the end of the array. -/
def load_ram (s : Chip8) (data : List Nat) (addr : Nat) : Option Chip8 :=
  if addr + data.length ≤ RAM_SIZE then
    some { s with ram := fun a =>
      if addr ≤ a ∧ a < addr + data.length then data.getD (a - addr) 0 else s.ram a }
  else none

/-- Chip8::decrease_timers, verbatim: each timer, when positive, has
itself subtracted from it. -/
def decrease_timers (s : Chip8) : Chip8 :=
  let s1 := if s.tim_delay > 0 then { s with tim_delay := s.tim_delay - s.tim_delay } else s
  if s1.tim_snd > 0 then { s1 with tim_snd := s1.tim_snd - s1.tim_snd } else s1

/-- One nibble field of the instruction word, exactly as the loop in
cycle computes it: (opcode AND (0xF000 shifted right by 4 n)) shifted
right by (12 - 4 n). -/
def nib (w n : Nat) : Nat :=
  (w &&& (0xF000 >>> (n * 4))) >>> (12 - n * 4)

/-- Opcodes 0NNN / 00E0 / 00EE. -/
def op_0xxx (s : Chip8) (opcode : Nat) : Option (Chip8 × PC) :=
  if opcode = 0xE0 then
    some ({ s with vram := fun _ _ => false, vram_changed := true }, PC.step)
  else if opcode = 0xEE then
    match s.stack with
    | [] => none
    | top :: rest => some ({ s with pc := top, stack := rest, sp := s.sp - 1 }, PC.keep)
  else
    some ({ s with pc := opcode }, PC.keep)

/-- Opcode 2NNN: push PC+2, bump sp, jump to NNN.  No depth check. -/
def op_2xxx (s : Chip8) (opcode : Nat) : Chip8 × PC :=
  ({ s with stack := (s.pc + 2) :: s.stack, sp := s.sp + 1, pc := opcode &&& 0xFFF },
   PC.keep)

/-- Opcodes 3XKK / 4XKK / 5XY0: conditional skips. -/
def op_3xxx_4xxx_5xxx (s : Chip8) (n0 : Nat) (x y : Fin 16) (n2 n3 : Nat) :
    Chip8 × PC :=
  let kk := ((n2 <<< 4) ||| n3) % 256
  if n0 = 3 ∧ s.v x = kk then (s, PC.skip)
  else if n0 = 4 ∧ s.v x ≠ kk then (s, PC.skip)
  else if n0 = 5 ∧ s.v x = s.v y then (s, PC.skip)
  else (s, PC.step)

/-- Opcodes 6XKK / 7XKK: load immediate, add immediate (u16 add then
cast back to u8). -/
def op_6xxx_7xxx (s : Chip8) (n0 : Nat) (x : Fin 16) (n2 n3 : Nat) :
    Chip8 × PC :=
  let kk := ((n2 <<< 4) ||| n3) % 256
  if n0 = 6 then ({ s with v := vupd s.v x kk }, PC.step)
  else if n0 = 7 then ({ s with v := vupd s.v x ((s.v x + kk) % 256) }, PC.step)
  else (s, PC.step)

/-- Opcodes 8XYn: arithmetic and shifts.  The writes happen in source
order (the flag register first where the source writes it first), and
the shift opcodes shift VX in place, with the VY source commented out
in hardware.rs. -/
def op_8xxx (s : Chip8) (x y : Fin 16) (n3 : Nat) : Option (Chip8 × PC) :=
  match n3 with
  | 0 => some ({ s with v := vupd s.v x (s.v y) }, PC.step)
  | 1 => some ({ s with v := vupd s.v x (s.v x ||| s.v y) }, PC.step)
  | 2 => some ({ s with v := vupd s.v x (s.v x &&& s.v y) }, PC.step)
  | 3 => some ({ s with v := vupd s.v x (s.v x ^^^ s.v y) }, PC.step)
  | 4 =>
    let val := s.v x + s.v y
    let s1 := { s with v := vupd s.v 15 (if val > 255 then 1 else 0) }
    some ({ s1 with v := vupd s1.v x (val % 256) }, PC.step)
  | 5 =>
    let val : Int := (s.v x : Int) - (s.v y : Int)
    let s1 := { s with v := vupd s.v 15 (if val < 0 then 0 else 1) }
    some ({ s1 with v := vupd s1.v x (val % 256).toNat }, PC.step)
  | 6 =>
    let s1 := { s with v := vupd s.v 15 (s.v y &&& 1) }
    some ({ s1 with v := vupd s1.v x (s1.v x >>> 1) }, PC.step)
  | 7 =>
    let val : Int := (s.v y : Int) - (s.v x : Int)
    let s1 := { s with v := vupd s.v 15 (if val < 0 then s.v 15 &&& 0 else 1) }
    some ({ s1 with v := vupd s1.v x (val % 256).toNat }, PC.step)
  | 0xE =>
    let s1 := { s with v := vupd s.v 15 (s.v y >>> 7) }
    some ({ s1 with v := vupd s1.v x ((s1.v x <<< 1) % 256) }, PC.step)
  | _ => none

/-- Inner column loop of the draw opcode: for n in 0..8, stopping early
at the right or bottom screen edge; reads the sprite byte from RAM each
iteration and overwrites the target pixel with the sprite bit.  The
fuel argument counts the remaining iterations (8 at entry). -/
def drawCols (ram : Nat → Nat) (iRow x ry : Nat) :
    Nat → Nat → (Nat → Nat → Bool) → Nat → Option ((Nat → Nat → Bool) × Nat)
  | 0, _, vram, vf => some (vram, vf)
  | fuel + 1, n, vram, vf =>
    if x + n ≥ CHIP8_WIDTH then some (vram, vf)
    else if ry ≥ CHIP8_HEIGHT then some (vram, vf)
    else
      match ramGet ram iRow with
      | none => none
      | some b =>
        let px : Bool := b &&& (1 <<< (7 - n)) != 0
        match vramGet vram ry (x + n) with
        | none => none
        | some old =>
          let vf2 := if vf ≠ 1 ∧ old = true ∧ px = true then 1 else vf
          match vramSet vram ry (x + n) px with
          | none => none
          | some vram2 => drawCols ram iRow x ry fuel (n + 1) vram2 vf2

/-- Outer row loop of the draw opcode: while sprite_height > 0. -/
def drawRows (ram : Nat → Nat) (i x y : Nat) :
    Nat → Nat → (Nat → Nat → Bool) → Nat → Option ((Nat → Nat → Bool) × Nat)
  | 0, _, vram, vf => some (vram, vf)
  | height + 1, row, vram, vf =>
    match drawCols ram (i + row) x (y + row) 8 0 vram vf with
    | none => none
    | some (vram2, vf2) => drawRows ram i x y height (row + 1) vram2 vf2

/-- Opcode DXYN: read the base coordinates from VX and VY, zero the
flag register, mark the frame buffer dirty, then run the row loop. -/
def op_Dxxx (s : Chip8) (xr yr : Fin 16) (n3 : Nat) : Option (Chip8 × PC) :=
  let x := s.v xr
  let y := s.v yr
  let s1 := { s with v := vupd s.v 15 0, vram_changed := true }
  match drawRows s1.ram s1.i x y n3 0 s1.vram 0 with
  | none => none
  | some (vram2, vf) =>
    some ({ s1 with vram := vram2, v := vupd s1.v 15 vf }, PC.step)

/-- Key loop of EX9E / EXA1: iterate over all 16 latched key states;
for each pressed key, compare its index with VX.  An unknown low byte
aborts only when some key is pressed (the match sits inside the
if key branch). -/
def exLoop (keys : Fin 16 → Bool) (kk vx : Nat) :
    List (Fin 16) → PC → Option PC
  | [], ret => some ret
  | k :: rest, ret =>
    if keys k then
      if kk = 0x9E then
        exLoop keys kk vx rest (if vx = k.val then PC.skip else ret)
      else if kk = 0xA1 then
        exLoop keys kk vx rest (if vx ≠ k.val then PC.skip else ret)
      else none
    else exLoop keys kk vx rest ret

/-- Opcodes EX9E / EXA1, including the keys.fill(false) at the end. -/
def op_Exxx (s : Chip8) (x : Fin 16) (n2 n3 : Nat) : Option (Chip8 × PC) :=
  let kk := ((n2 <<< 4) ||| n3) % 256
  match exLoop s.keys kk (s.v x) (List.finRange 16) PC.step with
  | none => none
  | some ret => some ({ s with keys := fun _ => false }, ret)

/-- BCD digit loop of FX33: while val > 0, pack val mod 10 into res at
bit position 4 * count.  The loop runs at most as many iterations as
val has decimal digits; val itself is passed as structural fuel, which
is enough because val strictly shrinks by division by ten. -/
def bcdGo : Nat → Nat → Nat → Nat → Nat
  | 0, _, _, res => res
  | fuel + 1, val, count, res =>
    if val = 0 then res
    else bcdGo fuel (val / 10) (count + 1) (res ||| ((val % 10) <<< (count <<< 2)))

/-- Entry point of the FX33 digit loop. -/
def bcdLoop (val count res : Nat) : Nat := bcdGo val val count res

/-- Register store loop of FX55 over the register indices 0..=X. -/
def storeRegs (v : Fin 16 → Nat) (base : Nat) :
    List (Fin 16) → (Nat → Nat) → Option (Nat → Nat)
  | [], ram => some ram
  | k :: rest, ram =>
    match ramSet ram (base + k.val) (v k) with
    | none => none
    | some ram2 => storeRegs v base rest ram2

/-- Register load loop of FX65 over the register indices 0..=X. -/
def loadRegs (base : Nat) (ram : Nat → Nat) :
    List (Fin 16) → (Fin 16 → Nat) → Option (Fin 16 → Nat)
  | [], v => some v
  | k :: rest, v =>
    match ramGet ram (base + k.val) with
    | none => none
    | some b => loadRegs base ram rest (vupd v k b)

/-- Opcodes FXnn: misc register operations, matched on the low byte.
FX1E uses checked_add on the 64-bit usize index register and falls
back to 65535 only when that 64-bit addition overflows.  FX29
multiplies the u8 register value by 5 (wrapping).  FX55 and FX65 bump
the index register by the register VALUE plus one (wrapping u8 add),
FX65 reading that value after the loads. -/
def op_Fxxx (s : Chip8) (x : Fin 16) (n2 n3 : Nat) : Option (Chip8 × PC) :=
  let kk := ((n2 <<< 4) ||| n3) % 256
  if kk = 0x07 then some ({ s with v := vupd s.v x s.tim_delay }, PC.step)
  else if kk = 0x0A then
    match (List.finRange 16).find? (fun k => s.keys k) with
    | some k => some ({ s with v := vupd s.v x k.val, keys := fun _ => false }, PC.step)
    | none => some ({ s with keys := fun _ => false }, PC.keep)
  else if kk = 0x15 then some ({ s with tim_delay := s.v x }, PC.step)
  else if kk = 0x18 then some ({ s with tim_snd := s.v x }, PC.step)
  else if kk = 0x1E then
    some ({ s with i := if s.i + s.v x < 2 ^ 64 then s.i + s.v x else 65535 }, PC.step)
  else if kk = 0x29 then some ({ s with i := s.v x * 5 % 256 }, PC.step)
  else if kk = 0x33 then
    let res := bcdLoop (s.v x) 0 0
    match ramSet s.ram (s.i + 2) (res &&& 0xF) with
    | none => none
    | some r1 =>
      match ramSet r1 (s.i + 1) ((res &&& 0xF0) >>> 4) with
      | none => none
      | some r2 =>
        match ramSet r2 s.i ((res &&& 0xF00) >>> 8) with
        | none => none
        | some r3 => some ({ s with ram := r3 }, PC.step)
  else if kk = 0x55 then
    match storeRegs s.v s.i ((List.finRange 16).take (x.val + 1)) s.ram with
    | none => none
    | some ram2 =>
      some ({ s with ram := ram2, i := s.i + (s.v x + 1) % 256 }, PC.step)
  else if kk = 0x65 then
    match loadRegs s.i s.ram ((List.finRange 16).take (x.val + 1)) s.v with
    | none => none
    | some v2 =>
      some ({ s with v := v2, i := s.i + (v2 x + 1) % 256 }, PC.step)
  else none

/-- The dispatch match on the top nibble inside cycle.  The register
index fields are four-bit, hence always in range for the sixteen-entry
register file; the outer guard records that bound (its else branch is
unreachable). -/
def execute (rnd : Fin 256) (s : Chip8) (opcode : Nat) : Option (Chip8 × PC) :=
  if hx : nib opcode 1 < 16 ∧ nib opcode 2 < 16 then
    let n0 := nib opcode 0
    let x : Fin 16 := ⟨nib opcode 1, hx.1⟩
    let y : Fin 16 := ⟨nib opcode 2, hx.2⟩
    if n0 = 0x0 then op_0xxx s opcode
    else if n0 = 0x1 then some ({ s with pc := opcode &&& 0xFFF }, PC.keep)
    else if n0 = 0x2 then some (op_2xxx s opcode)
    else if n0 = 0x3 ∨ n0 = 0x4 ∨ n0 = 0x5 then
      some (op_3xxx_4xxx_5xxx s n0 x y (nib opcode 2) (nib opcode 3))
    else if n0 = 0x6 ∨ n0 = 0x7 then
      some (op_6xxx_7xxx s n0 x (nib opcode 2) (nib opcode 3))
    else if n0 = 0x8 then op_8xxx s x y (nib opcode 3)
    else if n0 = 0x9 then
      some (if s.v x ≠ s.v y then (s, PC.skip) else (s, PC.step))
    else if n0 = 0xA then some ({ s with i := opcode &&& 0xFFF }, PC.step)
    else if n0 = 0xB then
      some ({ s with pc := (opcode &&& 0xFFF) + s.v 0 }, PC.keep)
    else if n0 = 0xC then
      some ({ s with
        v := vupd s.v x (rnd.val &&& ((nib opcode 2 <<< 4 ||| nib opcode 3) % 256)) },
        PC.step)
    else if n0 = 0xD then op_Dxxx s x y (nib opcode 3)
    else if n0 = 0xE then op_Exxx s x (nib opcode 2) (nib opcode 3)
    else if n0 = 0xF then op_Fxxx s x (nib opcode 2) (nib opcode 3)
    else none
  else none

/-- The PC advance applied at the end of cycle. -/
def applyPC (s : Chip8) (a : PC) : Chip8 :=
  match a with
  | PC.step => { s with pc := s.pc + 2 }
  | PC.skip => { s with pc := s.pc + 4 }
  | PC.keep => s

/-- The state-transforming body of Chip8::cycle: fetch the big-endian
instruction word at PC (aborting on an out-of-range read), snapshot the
host keyboard into the key latch (get_keys), dispatch, then apply the
PC policy. -/
def cycleAux (rnd : Fin 256) (keysDown : Fin 16 → Bool) (s : Chip8) :
    Option Chip8 :=
  match ramGet s.ram s.pc with
  | none => none
  | some hi =>
    match ramGet s.ram (s.pc + 1) with
    | none => none
    | some lo =>
      let opcode := hi <<< 8 ||| lo
      let s1 := { s with keys := keysDown }
      match execute rnd s1 opcode with
      | none => none
      | some (s2, act) => some (applyPC s2 act)

/-- Chip8::cycle, with its Rust result type: whenever the body runs to
completion the single return statement yields Ok of unit. -/
def cycle (rnd : Fin 256) (keysDown : Fin 16 → Bool) (s : Chip8) :
    Option (Chip8 × Except EmuError Unit) :=
  (cycleAux rnd keysDown s).map (fun s2 => (s2, Except.ok ()))

/-- Modelled from the spec: the font table (FONT_SET from src/font.rs,
a file absent from the sources) holds 16 fixed glyphs of 5 bytes each
for the digits 0 to F, and main.rs loads it at address 0x50, so the
glyph for digit d starts at address 0x50 + 5 * d. -/
def fontGlyphAddr (d : Nat) : Nat := 0x50 + 5 * d

/-- The font load address used by main.rs (load_ram of FONT_SET). -/
def FONT_BASE : Nat := 0x50

/-! Concrete machine states used to evaluate the interpreter. -/

/-- A fixed value for the external random byte. -/
def rnd0 : Fin 256 := 0

/-- Host keyboard with no key held down. -/
def noKeys : Fin 16 → Bool := fun _ => false

/-- Timers at 5 and 7, to observe one tick. -/
def sTimers : Chip8 := { chip8_new with tim_delay := 5, tim_snd := 7 }

/-- V0 = 2 and V1 = 1, for the 8XY6 shift. -/
def sShift : Chip8 :=
  { chip8_new with v := fun r => if r = 0 then 2 else if r = 1 then 1 else 0 }

/-- I = 0x300 and V0 = 7, for FX55 with X = 0. -/
def sStore : Chip8 :=
  { chip8_new with i := 0x300, v := fun r => if r = 0 then 7 else 0 }

/-- I = 0xFFFF and V0 = 1, for FX1E. -/
def sIdx : Chip8 :=
  { chip8_new with i := 0xFFFF, v := fun r => if r = 0 then 1 else 0 }

/-- V0 = 1, for FX29. -/
def sFont : Chip8 :=
  { chip8_new with v := fun r => if r = 0 then 1 else 0 }

/-- Pixel (0,0) lit, sprite byte 0x80 at I = 0x300, V0 = 0: drawing
D001 puts the high sprite bit onto the already-lit pixel. -/
def sDraw : Chip8 :=
  { chip8_new with
    i := 0x300
    ram := fun a => if a = 0x300 then 0x80 else 0
    vram := fun r c => r == 0 && c == 0 }

/-- A call stack already holding 16 return addresses, with opcode
0x2300 (call 0x300) at PC = 0x200. -/
def sCall : Chip8 :=
  { chip8_new with
    pc := 0x200
    sp := 16
    stack := [1, 2, 3, 4, 5, 6, 7, 8, 9, 10, 11, 12, 13, 14, 15, 16]
    ram := fun a => if a = 0x200 then 0x23 else 0 }

/-- Opcode 0xE0A1 (skip unless key V0 pressed) at PC = 0x200. -/
def sKey : Chip8 :=
  { chip8_new with
    pc := 0x200
    ram := fun a => if a = 0x200 then 0xE0 else if a = 0x201 then 0xA1 else 0 }

/-- Opcode 0x00E0 (clear screen) at PC = 0x200. -/
def sCLS : Chip8 :=
  { chip8_new with
    pc := 0x200
    ram := fun a => if a = 0x200 then 0x00 else if a = 0x201 then 0xE0 else 0 }

/-! Helper lemmas about the nibble decoder. -/

/-- Right shift distributes over bitwise and. -/
theorem shiftRight_land (x y k : Nat) :
    (x &&& y) >>> k = (x >>> k) &&& (y >>> k) := by
  apply Nat.eq_of_testBit_eq
  intro i
  simp [Nat.testBit_shiftRight, Nat.testBit_and, Nat.add_comm]

/-- The top nibble field is bits 12 to 15. -/
theorem nib0_eq (w : Nat) : nib w 0 = w / 4096 % 16 := by
  show (w &&& (0xF000 >>> (0 * 4))) >>> (12 - 0 * 4) = w / 4096 % 16
  norm_num
  rw [shiftRight_land]
  rw [show ((61440 : Nat) >>> 12) = 2 ^ 4 - 1 by decide]
  rw [Nat.and_pow_two_sub_one_eq_mod, Nat.shiftRight_eq_div_pow]

/-- The second nibble field is bits 8 to 11. -/
theorem nib1_eq (w : Nat) : nib w 1 = w / 256 % 16 := by
  show (w &&& (0xF000 >>> (1 * 4))) >>> (12 - 1 * 4) = w / 256 % 16
  norm_num
  rw [shiftRight_land]
  rw [show ((0xF000 : Nat) >>> 4) >>> 8 = 2 ^ 4 - 1 by decide]
  rw [Nat.and_pow_two_sub_one_eq_mod, Nat.shiftRight_eq_div_pow]

/-- The third nibble field is bits 4 to 7. -/
theorem nib2_eq (w : Nat) : nib w 2 = w / 16 % 16 := by
  show (w &&& (0xF000 >>> (2 * 4))) >>> (12 - 2 * 4) = w / 16 % 16
  norm_num
  rw [shiftRight_land]
  rw [show ((0xF000 : Nat) >>> 8) >>> 4 = 2 ^ 4 - 1 by decide]
  rw [Nat.and_pow_two_sub_one_eq_mod, Nat.shiftRight_eq_div_pow]

/-- The low nibble field is bits 0 to 3. -/
theorem nib3_eq (w : Nat) : nib w 3 = w % 16 := by
  show (w &&& (0xF000 >>> (3 * 4))) >>> (12 - 3 * 4) = w % 16
  norm_num
  rw [show ((0xF000 : Nat) >>> 12) = 2 ^ 4 - 1 by decide]
  rw [Nat.and_pow_two_sub_one_eq_mod]

/-- Bitwise or of a shifted value with a small value is addition. -/
theorem or_step (k a b : Nat) (hb : b < 2 ^ k) :
    (2 ^ k * a) ||| b = 2 ^ k * a + b :=
  (Nat.mul_add_lt_is_or hb a).symm

/-! The claims. -/

/-- C1: the claim says a drawn pixel becomes old XOR spriteBit.  On a
state whose pixel (0,0) is lit and whose sprite bit is 1, XOR would
turn the pixel off, but op_Dxxx leaves it lit (the code overwrites the
pixel with the sprite bit) while still setting the collision flag VF,
whose own comment says a pixel was turned off.  The second conjunct
records what the claimed XOR value at that pixel would be. -/
theorem C1_draw_overwrites_pixel :
    (op_Dxxx sDraw 0 0 1).map (fun r => (r.1.vram 0 0, r.1.v 15)) = some (true, 1) ∧
      xor (sDraw.vram 0 0) true = false :=
  ⟨rfl, rfl⟩

/-- C2: the claim says one decrease_timers tick lowers each positive
timer by exactly 1.  The code subtracts each timer from itself, so any
state leaves both timers at 0; at delay = 5 and sound = 7 the claim
would give 4 and 6. -/
theorem C2_decrease_timers_zeroes (s : Chip8) :
    (decrease_timers s).tim_delay = 0 ∧ (decrease_timers s).tim_snd = 0 := by
  rcases Nat.eq_zero_or_pos s.tim_delay with hd | hd <;>
    rcases Nat.eq_zero_or_pos s.tim_snd with hs | hs <;>
      simp [decrease_timers, hd, hs]

/-- C3: the claim says 8XY6 sets VX to VY shifted right (with VF the
low bit of VY).  With V0 = 2, V1 = 1, X = 0, Y = 1 the code yields
V0 = 1 = V0 >> 1 (it shifts VX in place; the VY source is commented
out), while the claim predicts V0 = V1 >> 1 = 0.  VF = 1 does come
from VY. -/
theorem C3_shift_uses_vx :
    (op_8xxx sShift 0 1 6).map (fun r => (r.1.v 0, r.1.v 15)) = some (1, 1) :=
  rfl

/-- C4: the claim says FX55 bumps I by X + 1 (the register index).
With X = 0, V0 = 7, I = 0x300 the code stores V0 at 0x300 but bumps I
by V0 + 1 = 8 (the register VALUE), giving 0x308 instead of the
claimed 0x301. -/
theorem C4_fx55_bumps_i_by_value :
    (op_Fxxx sStore 0 5 5).map (fun r => (r.1.i, r.1.ram 0x300)) = some (0x308, 7) :=
  rfl

/-- C5: the claim says a 2NNN call on a 16-deep stack is a fatal
StackOverflow and depth never exceeds 16.  Executing cycle on a state
whose stack holds 16 return addresses pushes a 17th entry, jumps to
0x300 and returns Ok: the code never checks the depth. -/
theorem C5_call_pushes_unchecked :
    (cycle rnd0 noKeys sCall).map (fun r => (r.1.stack.length, r.1.pc, r.2)) =
      some (17, 0x300, Except.ok ()) :=
  rfl

/-- C6: the claim says FX1E saturates I at 0xFFFF.  With I = 0xFFFF
and V0 = 1 the code yields I = 0x10000: its 65535 fallback fires only
when the 64-bit usize addition overflows, so I passes 0xFFFF freely. -/
theorem C6_fx1e_exceeds_ffff :
    (op_Fxxx sIdx 0 1 0xE).map (fun r => r.1.i) = some 0x10000 :=
  rfl

/-- C7: the claim says EXA1 skips (PC + 4) exactly when key VX is not
pressed, including when no key at all is pressed.  With no key pressed
the code advances PC by 2 only: its skip logic runs once per pressed
key, so an empty keyboard never skips. -/
theorem C7_exa1_no_key_steps :
    (cycle rnd0 noKeys sKey).map (fun r => r.1.pc) = some 0x202 :=
  rfl

/-- C8: the claim says FX29 points I at the glyph loaded for digit
VX, which main.rs places at 0x50 + 5 * d.  With V0 = 1 the code sets
I = 5, while glyph 1 was loaded at fontGlyphAddr 1 = 0x55: the code
omits the 0x50 font base. -/
theorem C8_fx29_misses_font_base :
    (op_Fxxx sFont 0 2 9).map (fun r => r.1.i) = some 5 ∧ fontGlyphAddr 1 = 0x55 :=
  ⟨rfl, rfl⟩

/-- C9: recombining the four nibble fields produced by the decoder in
cycle, each shifted back into its position, restores every 16-bit
instruction word exactly. -/
theorem C9_decoder_roundtrip (w : Nat) (h : w < 65536) :
    nib w 0 <<< 12 ||| nib w 1 <<< 8 ||| nib w 2 <<< 4 ||| nib w 3 = w := by
  rw [nib0_eq, nib1_eq, nib2_eq, nib3_eq]
  rw [show (w / 4096 % 16) <<< 12 = 2 ^ 12 * (w / 4096 % 16) by
    rw [Nat.shiftLeft_eq]; ring]
  rw [show (w / 256 % 16) <<< 8 = 2 ^ 8 * (w / 256 % 16) by
    rw [Nat.shiftLeft_eq]; ring]
  rw [show (w / 16 % 16) <<< 4 = 2 ^ 4 * (w / 16 % 16) by
    rw [Nat.shiftLeft_eq]; ring]
  rw [or_step 12 (w / 4096 % 16) (2 ^ 8 * (w / 256 % 16)) (by omega)]
  rw [show 2 ^ 12 * (w / 4096 % 16) + 2 ^ 8 * (w / 256 % 16) =
      2 ^ 8 * (16 * (w / 4096 % 16) + w / 256 % 16) by ring]
  rw [or_step 8 (16 * (w / 4096 % 16) + w / 256 % 16) (2 ^ 4 * (w / 16 % 16)) (by omega)]
  rw [show 2 ^ 8 * (16 * (w / 4096 % 16) + w / 256 % 16) + 2 ^ 4 * (w / 16 % 16) =
      2 ^ 4 * (16 * (16 * (w / 4096 % 16) + w / 256 % 16) + w / 16 % 16) by ring]
  rw [or_step 4 (16 * (16 * (w / 4096 % 16) + w / 256 % 16) + w / 16 % 16) (w % 16)
    (by omega)]
  omega

/-- C9 witness: the round trip at the concrete word 0xD123. -/
theorem C9_decoder_roundtrip_witness :
    0xD123 < 65536 ∧
      nib 0xD123 0 <<< 12 ||| nib 0xD123 1 <<< 8 ||| nib 0xD123 2 <<< 4 |||
        nib 0xD123 3 = 0xD123 :=
  ⟨by decide, C9_decoder_roundtrip 0xD123 (by decide)⟩

/-- C10: whenever cycle returns a result at all, that result carries
Ok of unit: the body has a single return of a result value, and every
failure condition aborts instead of producing an error value. -/
theorem C10_cycle_returns_ok (rnd : Fin 256) (kd : Fin 16 → Bool) (s : Chip8)
    (r : Chip8 × Except EmuError Unit) (h : cycle rnd kd s = some r) :
    r.2 = Except.ok () := by
  unfold cycle at h
  cases hx : cycleAux rnd kd s with
  | none => rw [hx] at h; simp at h
  | some s2 => rw [hx] at h; simp at h; rw [← h]

/-- C10 witness: running cycle on the clear-screen state returns and
the returned result is Ok of unit. -/
theorem C10_cycle_returns_ok_witness :
    (cycle rnd0 noKeys sCLS).map Prod.snd = some (Except.ok ()) := by
  obtain ⟨r, hr⟩ : ∃ r, cycle rnd0 noKeys sCLS = some r := ⟨_, rfl⟩
  rw [hr]
  show some r.2 = some (Except.ok ())
  rw [C10_cycle_returns_ok rnd0 noKeys sCLS r hr]

end Rust8
